import Mathlib

set_option allowUnsafeReducibility true

attribute [semireducible] Rat.add Rat.sub Rat.mul Rat.div Rat.neg Rat.inv

/-!
Shallow embedding of the order execution engine from
`src/trading-engine/cpp/execution/order_engine.cpp` / `order_engine.h`.

Modelling conventions:
* C++ `double` quantities, sizes and real-valued prices are modelled as `Rat`
  (exact rational arithmetic, the usual idealisation of IEEE doubles).
* `Price` is represented by its tick count (`int64_t ticks_`), modelled as `Int`.
  C++ integer division and double-to-int64 casts truncate toward zero, modelled
  by `Int.tdiv` and `truncRat`.
* `std::unordered_map` is modelled as an association list with `alookup` /
  `aset` / `aerase`; `aset` replaces any existing binding of the key.
* Clock readings (latency) are inputs to the model; callbacks are modelled as
  emitted event values, produced only when the corresponding callback is
  registered, mirroring the `if (fill_callback_)` / `if (status_callback_)`
  guards in the C++.
-/

/-- Truncation toward zero of a rational number, modelling the C++ cast from
`double` to `int64_t`. -/
def truncRat (x : Rat) : Int := Int.tdiv x.num (x.den : Int)

/-- `OrderType` enum from `order_engine.h`. -/
inductive OrderType where
  | market
  | limit
  | stop
  | stopLimit
  | trailingStop
deriving DecidableEq

/-- `OrderSide` enum from `order_engine.h`. -/
inductive OrderSide where
  | buy
  | sell
deriving DecidableEq

/-- `OrderStatus` enum from `order_engine.h`. -/
inductive OrderStatus where
  | pending
  | submitted
  | partiallyFilled
  | filled
  | cancelled
  | rejected
  | expired
deriving DecidableEq

/-- `TimeInForce` enum from `order_engine.h`. -/
inductive TimeInForce where
  | gtc
  | ioc
  | fok
  | day
  | gtd
deriving DecidableEq

/-- `ExecutionResult` codes from `order_engine.h`. -/
inductive ExecutionResult where
  | success
  | invalidOrder
  | insufficientLiquidity
  | riskLimitExceeded
  | timeout
  | systemError
  | orderNotFound
  | marketClosed
deriving DecidableEq

/-- `Price::TICK_PRECISION = 100000` (5 decimal places). -/
def TICK_PRECISION : Int := 100000

/-- `Price(double value)`: `ticks_ = static_cast<int64_t>(value * TICK_PRECISION)`. -/
def priceTicksOfReal (v : Rat) : Int := truncRat (v * (TICK_PRECISION : Rat))

/-- `ORDER_BOOK_DEPTH = 20`. -/
def ORDER_BOOK_DEPTH : Nat := 20

/-- `OrderBookLevel`: one (price ticks, size) pair of a book side. -/
structure OrderBookLevel where
  price_ticks : Int
  size : Rat
deriving DecidableEq

/-- `OrderBookLevel::is_valid()`: `price_ticks_ > 0 && size_ > 0`. -/
def OrderBookLevel.is_valid (l : OrderBookLevel) : Bool :=
  decide (0 < l.price_ticks) && decide (0 < l.size)

/-- `OrderBook`: symbol plus 20 bid levels and 20 ask levels (level 0 = top). -/
structure OrderBook where
  symbol : String
  bids : List OrderBookLevel
  asks : List OrderBookLevel
deriving DecidableEq

/-- A freshly constructed `OrderBook(symbol)`: all levels zero-initialised. -/
def OrderBook.empty (symbol : String) : OrderBook :=
  ⟨symbol, List.replicate ORDER_BOOK_DEPTH ⟨0, 0⟩, List.replicate ORDER_BOOK_DEPTH ⟨0, 0⟩⟩

/-- `OrderBook::update_bid`: no-op if `level >= ORDER_BOOK_DEPTH`, else writes
the level. (The `last_update_time` clock refresh is not modelled.) -/
def OrderBook.update_bid (b : OrderBook) (price_ticks : Int) (size : Rat) (level : Nat) :
    OrderBook :=
  if ORDER_BOOK_DEPTH ≤ level then b
  else { b with bids := b.bids.set level ⟨price_ticks, size⟩ }

/-- `OrderBook::update_ask`: no-op if `level >= ORDER_BOOK_DEPTH`, else writes
the level. -/
def OrderBook.update_ask (b : OrderBook) (price_ticks : Int) (size : Rat) (level : Nat) :
    OrderBook :=
  if ORDER_BOOK_DEPTH ≤ level then b
  else { b with asks := b.asks.set level ⟨price_ticks, size⟩ }

/-- `OrderBook::get_best_bid()`: level 0 bid price (ticks). -/
def OrderBook.get_best_bid (b : OrderBook) : Int := (b.bids.headD ⟨0, 0⟩).price_ticks

/-- `OrderBook::get_best_ask()`: level 0 ask price (ticks). -/
def OrderBook.get_best_ask (b : OrderBook) : Int := (b.asks.headD ⟨0, 0⟩).price_ticks

/-- `OrderBook::get_mid_price()`: `(bid.ticks() + ask.ticks()) / 2` with C++
`int64_t` division (truncation toward zero). -/
def OrderBook.get_mid_price (b : OrderBook) : Int :=
  Int.tdiv (b.get_best_bid + b.get_best_ask) 2

/-- The side of the book a taker order executes against: asks for BUY,
bids for SELL. -/
def OrderBook.opposing (b : OrderBook) (side : OrderSide) : List OrderBookLevel :=
  match side with
  | .buy => b.asks
  | .sell => b.bids

/-- Price acceptability test of `has_sufficient_liquidity`: the C++ breaks on
`level.get_price() > limit_price` for BUY (ask side) and on
`level.get_price() < limit_price` for SELL (bid side). -/
def levelAcceptable (side : OrderSide) (limit : Int) (l : OrderBookLevel) : Bool :=
  match side with
  | .buy => decide (l.price_ticks ≤ limit)
  | .sell => decide (limit ≤ l.price_ticks)

/-- The loop of `OrderBook::has_sufficient_liquidity`: walks the levels with an
accumulator `avail`; breaks at the first invalid or out-of-limit level;
returns `true` as soon as `avail + size >= quantity`. -/
def hslWalk (side : OrderSide) (quantity : Rat) (limit : Int) :
    List OrderBookLevel → Rat → Bool
  | [], _ => false
  | l :: rest, avail =>
    if ! l.is_valid then false
    else if ! levelAcceptable side limit l then false
    else if quantity ≤ avail + l.size then true
    else hslWalk side quantity limit rest (avail + l.size)

/-- `OrderBook::has_sufficient_liquidity(side, quantity, limit_price)`. -/
def OrderBook.has_sufficient_liquidity (b : OrderBook) (side : OrderSide)
    (quantity : Rat) (limit : Int) : Bool :=
  hslWalk side quantity limit (b.opposing side) 0

/-- The loop of `OrderBook::get_fills_for_market_order`: emits
`(price, min(remaining, size))` per level, stopping at the first invalid level
or when the remaining quantity is exhausted (`remaining <= 0`). -/
def fillsWalk : List OrderBookLevel → Rat → List (Int × Rat)
  | [], _ => []
  | l :: rest, remaining =>
    if ! l.is_valid || decide (remaining ≤ 0) then []
    else
      let fq := if l.size < remaining then l.size else remaining
      (l.price_ticks, fq) :: fillsWalk rest (remaining - fq)

/-- `OrderBook::get_fills_for_market_order(side, quantity)`. -/
def OrderBook.get_fills_for_market_order (b : OrderBook) (side : OrderSide)
    (quantity : Rat) : List (Int × Rat) :=
  fillsWalk (b.opposing side) quantity

/-- `COrderRequest` (the fields the engine reads; the fixed-size char arrays
are modelled as `String`, doubles as `Rat`). -/
structure COrderRequest where
  order_id : String
  symbol : String
  order_type : OrderType
  side : OrderSide
  quantity : Rat
  price : Rat
  stop_price : Rat
  time_in_force : TimeInForce
deriving DecidableEq

/-- `Order`: client intent plus mutable execution state. `price_ticks` /
`stop_price_ticks` are the tick counts of the `Price` members. -/
structure Order where
  order_id : String
  symbol : String
  type : OrderType
  side : OrderSide
  quantity : Rat
  price_ticks : Int
  stop_price_ticks : Int
  tif : TimeInForce
  status : OrderStatus
  filled_quantity : Rat
  average_fill_price_ticks : Int
  fills : List (Int × Rat)
deriving DecidableEq

/-- `Order::Order(const COrderRequest&)`: copies the request fields and
converts the double prices to ticks; status starts `PENDING`, filled quantity
0, average fill price 0 ticks, empty fill history. -/
def Order.ofRequest (req : COrderRequest) : Order :=
  { order_id := req.order_id
    symbol := req.symbol
    type := req.order_type
    side := req.side
    quantity := req.quantity
    price_ticks := priceTicksOfReal req.price
    stop_price_ticks := priceTicksOfReal req.stop_price
    tif := req.time_in_force
    status := .pending
    filled_quantity := 0
    average_fill_price_ticks := 0
    fills := [] }

/-- `Order::validate()`: the chain of early `return false` checks. -/
def Order.validate (o : Order) : Bool :=
  if o.order_id.isEmpty || o.symbol.isEmpty then false
  else if o.quantity ≤ 0 then false
  else if o.type = OrderType.limit ∧ o.price_ticks ≤ 0 then false
  else if o.type = OrderType.stop ∧ o.stop_price_ticks ≤ 0 then false
  else true

/-- `Order::add_fill(price, quantity, fee)`: appends `(price, quantity)` to the
fill history, adds to the filled quantity, recomputes the weighted-average fill
price in double arithmetic truncated back to `int64_t` ticks, and sets status
`FILLED` when `new_filled >= quantity_`, else `PARTIALLY_FILLED`. (The C++
`fee` parameter defaults to 0 and is ignored by the body, so it is omitted.) -/
def Order.add_fill (o : Order) (price_ticks : Int) (fill_qty : Rat) : Order :=
  let new_filled := o.filled_quantity + fill_qty
  let new_avg := truncRat
    (((o.average_fill_price_ticks : Rat) * o.filled_quantity
      + (price_ticks : Rat) * fill_qty) / new_filled)
  { o with
    fills := o.fills ++ [(price_ticks, fill_qty)]
    filled_quantity := new_filled
    average_fill_price_ticks := new_avg
    status := if o.quantity ≤ new_filled then .filled else .partiallyFilled }

/-- `Order::is_active()`: status is `SUBMITTED` or `PARTIALLY_FILLED`. -/
def Order.is_active (o : Order) : Bool :=
  decide (o.status = OrderStatus.submitted) || decide (o.status = OrderStatus.partiallyFilled)

/-- Latency sample cap of `PerformanceMetrics` (`> 10000` triggers truncation
of the oldest samples). -/
def LATENCY_SAMPLE_CAP : Nat := 10000

/-- `PerformanceMetrics` state (the counters the claims touch). -/
structure Metrics where
  total_orders_processed : Nat
  successful_executions : Nat
  failed_executions : Nat
  total_latency_micros : Int
  latency_samples : List Int
  total_volume : Rat
deriving DecidableEq

/-- Zero-initialised `PerformanceMetrics`. -/
def Metrics.fresh : Metrics := ⟨0, 0, 0, 0, [], 0⟩

/-- `PerformanceMetrics::record_order_processed(latency, success)`: increments
the total, adds to the latency sum, increments exactly one of
successful/failed, appends the sample and truncates the buffer to the newest
10000 samples. -/
def Metrics.record_order_processed (m : Metrics) (latency_micros : Int) (success : Bool) :
    Metrics :=
  let samples := m.latency_samples ++ [latency_micros]
  { total_orders_processed := m.total_orders_processed + 1
    successful_executions :=
      if success then m.successful_executions + 1 else m.successful_executions
    failed_executions :=
      if success then m.failed_executions else m.failed_executions + 1
    total_latency_micros := m.total_latency_micros + latency_micros
    latency_samples :=
      if LATENCY_SAMPLE_CAP < samples.length then
        samples.drop (samples.length - LATENCY_SAMPLE_CAP)
      else samples
    total_volume := m.total_volume }

/-- `PerformanceMetrics::record_fill(quantity, price)`: adds
`quantity * price` to the running volume. -/
def Metrics.record_fill (m : Metrics) (quantity : Rat) (price : Rat) : Metrics :=
  { m with total_volume := m.total_volume + quantity * price }

/-- The fields of `CEngineMetrics` the claims are about. -/
structure MetricsSnapshot where
  total_orders_processed : Nat
  successful_executions : Nat
  failed_executions : Nat
  active_orders : Nat
  average_latency_micros : Rat
  p99_latency_micros : Int
deriving DecidableEq

/-- The P99 index `static_cast<size_t>(n * 0.99)`, i.e. `floor(0.99 * n)`. -/
def p99Index (n : Nat) : Nat := n * 99 / 100

/-- `PerformanceMetrics::get_metrics()`: average latency is
`latency_sum / total` when `total > 0` (else the zero-initialised 0); P99 is
the element at index `floor(0.99 * n)` of the sorted sample buffer when the
buffer is nonempty and the index is in range (else the zero-initialised 0).
The `active_orders` field is the metrics object's own (never-incremented)
counter, later overwritten by the engine. -/
def Metrics.get_metrics (m : Metrics) : MetricsSnapshot :=
  let sorted := m.latency_samples.mergeSort (fun a b => decide (a ≤ b))
  { total_orders_processed := m.total_orders_processed
    successful_executions := m.successful_executions
    failed_executions := m.failed_executions
    active_orders := 0
    average_latency_micros :=
      if 0 < m.total_orders_processed then
        (m.total_latency_micros : Rat) / (m.total_orders_processed : Rat)
      else 0
    p99_latency_micros :=
      if m.latency_samples.isEmpty then 0
      else if p99Index m.latency_samples.length < sorted.length then
        sorted.getD (p99Index m.latency_samples.length) 0
      else 0 }

/-- A status-callback invocation (order id, new status, message). -/
structure StatusEvent where
  order_id : String
  status : OrderStatus
  message : String
deriving DecidableEq

/-- A fill-callback invocation: the fields of the `OrderFill` the engine
builds (id/timestamp/venue constants are not modelled). -/
structure FillEvent where
  order_id : String
  price_ticks : Int
  quantity : Rat
  fee : Rat
deriving DecidableEq

/-- `fee = fill.second * 0.001` (0.1% of the filled size). -/
def feeOfQuantity (q : Rat) : Rat := q * (1 / 1000)

/-- Association-list lookup, modelling `unordered_map::find`. -/
def alookup {α : Type} (k : String) : List (String × α) → Option α
  | [] => none
  | p :: rest => if p.1 = k then some p.2 else alookup k rest

/-- Association-list write, modelling `map[k] = v` (replaces any existing
binding of `k`). -/
def aset {α : Type} (m : List (String × α)) (k : String) (v : α) : List (String × α) :=
  (k, v) :: m.filter (fun p => ! decide (p.1 = k))

/-- Association-list erase, modelling `map.erase(it)`. -/
def aerase {α : Type} (m : List (String × α)) (k : String) : List (String × α) :=
  m.filter (fun p => ! decide (p.1 = k))

/-- `ExecutionEngine` state. `fill_cb_registered` / `status_cb_registered`
model whether `fill_callback_` / `status_callback_` are non-null. -/
structure Engine where
  initialized : Bool
  running : Bool
  healthy : Bool
  enable_risk_checks : Bool
  max_position_size : Rat
  order_books : List (String × OrderBook)
  active_orders : List (String × Order)
  order_queue : List Order
  fill_cb_registered : Bool
  status_cb_registered : Bool
  metrics : Metrics
deriving DecidableEq

/-- A freshly constructed `ExecutionEngine` with the default `Config`
(`enable_risk_checks = true`, `max_position_size = 1000000`). -/
def Engine.fresh : Engine :=
  ⟨false, false, false, true, 1000000, [], [], [], false, false, Metrics.fresh⟩

/-- The five seed symbols of `ExecutionEngine::initialize`. -/
def seedSymbols : List String := ["AAPL", "GOOGL", "MSFT", "TSLA", "AMZN"]

/-- `ExecutionEngine::initialize(config_json)`: (re)creates a fresh empty book
for each of the five seed symbols, sets the initialized flag, returns
`EXEC_SUCCESS`. -/
def Engine.initialize (e : Engine) : Engine × ExecutionResult :=
  ({ e with
      order_books := seedSymbols.foldl (fun bs s => aset bs s (OrderBook.empty s)) e.order_books
      initialized := true },
   .success)

/-- `ExecutionEngine::start()`: `SYSTEM_ERROR` when not initialized; `SUCCESS`
as a no-op when already running; else sets running and healthy. (Worker and
simulator thread creation is not modelled.) -/
def Engine.start (e : Engine) : Engine × ExecutionResult :=
  if ! e.initialized then (e, .systemError)
  else if e.running then (e, .success)
  else ({ e with running := true, healthy := true }, .success)

/-- `ExecutionEngine::stop()`: clears running and healthy, always returns
`EXEC_SUCCESS`. (Thread joins are not modelled.) -/
def Engine.stop (e : Engine) : Engine × ExecutionResult :=
  ({ e with running := false, healthy := false }, .success)

/-- A book write as performed by the market-data feed / simulator:
`order_books_[sym]->update_bid(price, size, level)`. -/
def Engine.update_book_bid (e : Engine) (sym : String) (price_ticks : Int) (size : Rat)
    (level : Nat) : Engine :=
  match alookup sym e.order_books with
  | none => e
  | some b => { e with order_books := aset e.order_books sym (b.update_bid price_ticks size level) }

/-- `ExecutionEngine::execute_market_order`: unknown symbol gives
`INVALID_ORDER`; empty fill list gives `INSUFFICIENT_LIQUIDITY`; otherwise
each fill is added to the order and (when the fill callback is registered) a
fill event with `fee = 0.001 * size` is emitted per fill, result `SUCCESS`. -/
def Engine.execute_market_order (e : Engine) (o : Order) :
    ExecutionResult × Order × List FillEvent :=
  match alookup o.symbol e.order_books with
  | none => (.invalidOrder, o, [])
  | some book =>
    let fills := book.get_fills_for_market_order o.side o.quantity
    if fills.isEmpty then (.insufficientLiquidity, o, [])
    else
      (.success,
       fills.foldl (fun acc f => acc.add_fill f.1 f.2) o,
       if e.fill_cb_registered then
         fills.map (fun f => ⟨o.order_id, f.1, f.2, feeOfQuantity f.2⟩)
       else [])

/-- `ExecutionEngine::execute_limit_order`: unknown symbol gives
`INVALID_ORDER`; immediately fillable iff the limit crosses the opposing best
price and `has_sufficient_liquidity` holds, in which case a single fill at the
limit price for the full quantity is recorded; otherwise the order is left
`SUBMITTED`. Both branches return `SUCCESS`. -/
def Engine.execute_limit_order (e : Engine) (o : Order) : ExecutionResult × Order :=
  match alookup o.symbol e.order_books with
  | none => (.invalidOrder, o)
  | some book =>
    let best := match o.side with
      | .buy => book.get_best_ask
      | .sell => book.get_best_bid
    let can_fill := match o.side with
      | .buy => decide (best ≤ o.price_ticks)
      | .sell => decide (o.price_ticks ≤ best)
    if can_fill && book.has_sufficient_liquidity o.side o.quantity o.price_ticks then
      (.success, o.add_fill o.price_ticks o.quantity)
    else
      (.success, { o with status := .submitted })

/-- `ExecutionEngine::execute_stop_order`: unknown symbol gives
`INVALID_ORDER`; triggers iff (BUY and mid >= stop) or (SELL and mid <= stop),
recording a single fill at the mid price for the full quantity; otherwise the
order is left `SUBMITTED`. Both branches return `SUCCESS`. -/
def Engine.execute_stop_order (e : Engine) (o : Order) : ExecutionResult × Order :=
  match alookup o.symbol e.order_books with
  | none => (.invalidOrder, o)
  | some book =>
    let p := book.get_mid_price
    let triggered := match o.side with
      | .buy => decide (o.stop_price_ticks ≤ p)
      | .sell => decide (p ≤ o.stop_price_ticks)
    if triggered then (.success, o.add_fill p o.quantity)
    else (.success, { o with status := .submitted })

/-- `ExecutionEngine::cancel_order(order_id)`: absent id gives
`ORDER_NOT_FOUND`; a present but non-active order gives `INVALID_ORDER` with
no state change; otherwise the order is removed from the active map, a status
event "Order cancelled" is emitted when the status callback is registered, and
the result is `SUCCESS`. -/
def Engine.cancel_order (e : Engine) (order_id : String) :
    Engine × ExecutionResult × Option StatusEvent :=
  match alookup order_id e.active_orders with
  | none => (e, .orderNotFound, none)
  | some o =>
    if ! o.is_active then (e, .invalidOrder, none)
    else
      ({ e with active_orders := aerase e.active_orders order_id },
       .success,
       if e.status_cb_registered then some ⟨order_id, .cancelled, "Order cancelled"⟩ else none)

/-- `COrderResponse` (the fields the engine writes). `average_price` is the
double `avg_ticks / TICK_PRECISION`. -/
structure COrderResponse where
  order_id : String
  result : ExecutionResult
  status : OrderStatus
  message : String
  executed_quantity : Rat
  average_price : Rat
deriving DecidableEq

/-- `ExecutionEngine::submit_order(request, response)`. The response starts
with `result = SUCCESS`, `status = SUBMITTED`, zero quantities. Validation
failure returns `INVALID_ORDER` early (leaving the initialised `SUBMITTED`
status); then the risk check; then the order is inserted into the active map
and the work queue and dispatched by type; finally the response is populated
from the executed order and metrics are recorded. `latency_micros` is the
measured clock value, supplied as an input to the model. -/
def Engine.submit_order (e : Engine) (req : COrderRequest) (latency_micros : Int) :
    Engine × COrderResponse × List FillEvent :=
  let o := Order.ofRequest req
  if ! o.validate then
    (e, ⟨req.order_id, .invalidOrder, .submitted, "Invalid order parameters", 0, 0⟩, [])
  else if e.enable_risk_checks && decide (e.max_position_size < o.quantity) then
    (e, ⟨req.order_id, .riskLimitExceeded, .submitted, "Order size exceeds risk limits", 0, 0⟩, [])
  else
    let e1 := { e with
      active_orders := aset e.active_orders o.order_id o
      order_queue := e.order_queue ++ [o] }
    let step : ExecutionResult × Order × List FillEvent :=
      match o.type with
      | .market => e1.execute_market_order o
      | .limit =>
        let r := e1.execute_limit_order o
        (r.1, r.2, [])
      | .stop =>
        let r := e1.execute_stop_order o
        (r.1, r.2, [])
      | _ => (.invalidOrder, o, [])
    let res := step.1
    let o2 := step.2.1
    let e2 := { e1 with active_orders := aset e1.active_orders o.order_id o2 }
    let resp : COrderResponse :=
      ⟨req.order_id, res, o2.status, "", o2.filled_quantity,
       (o2.average_fill_price_ticks : Rat) / (TICK_PRECISION : Rat)⟩
    let m1 := e2.metrics.record_order_processed latency_micros (decide (res = .success))
    let m2 :=
      if res = ExecutionResult.success ∧ 0 < o2.filled_quantity then
        m1.record_fill o2.filled_quantity
          ((priceTicksOfReal resp.average_price : Rat) / (TICK_PRECISION : Rat))
      else m1
    ({ e2 with metrics := m2 }, resp, step.2.2)

/-- `ExecutionEngine::get_metrics()`: the `PerformanceMetrics` snapshot with
`active_orders` overwritten by the size of the engine's active-orders map. -/
def Engine.get_metrics (e : Engine) : MetricsSnapshot :=
  { e.metrics.get_metrics with active_orders := e.active_orders.length }

/-!
Spec-side auxiliary definitions used to state the claims, and concrete
fixtures used by witnesses and counterexamples.
-/

/-- Sum of the sizes of a list of emitted fills. -/
def fillSizeSum (fills : List (Int × Rat)) : Rat := (fills.map (fun f => f.2)).sum

/-- Sum of the sizes of a list of book levels. -/
def levelSizeSum (levels : List OrderBookLevel) : Rat := (levels.map (fun l => l.size)).sum

/-- The maximal initial run of valid levels of a book side (where the market
order walk actually stops). -/
def validRunLevels (levels : List OrderBookLevel) : List OrderBookLevel :=
  levels.takeWhile (fun l => l.is_valid)

/-- All valid levels of a book side, wherever they sit (the literal reading of
"the valid opposing-side levels" in claim C3). -/
def validLevels (levels : List OrderBookLevel) : List OrderBookLevel :=
  levels.filter (fun l => l.is_valid)

/-- The maximal initial run of valid, price-acceptable levels (the levels
`has_sufficient_liquidity` accumulates before stopping). -/
def acceptedRunLevels (side : OrderSide) (limit : Int) (levels : List OrderBookLevel) :
    List OrderBookLevel :=
  levels.takeWhile (fun l => l.is_valid && levelAcceptable side limit l)

/-- A metrics object reached from a fresh one by a sequence of
`record_order_processed` calls, given as (latency, success) pairs. -/
def applyOrders (events : List (Int × Bool)) : Metrics :=
  events.foldl (fun m ev => m.record_order_processed ev.1 ev.2) Metrics.fresh

/-- C1 counterexample input: an order request with an empty id (validation
fails on the first check). -/
def reqEmptyId : COrderRequest :=
  ⟨"", "AAPL", OrderType.market, OrderSide.buy, 100, 0, 0, TimeInForce.ioc⟩

/-- An AAPL book with top-of-book bid 149.9 and ask 150.0 (in ticks), both of
size 1000, as the simulator would produce. -/
def bookAAPL : OrderBook :=
  ((OrderBook.empty "AAPL").update_bid 14990000 1000 0).update_ask 15000000 1000 0

/-- Engine fixture: initialized books replaced by the single AAPL test book,
both callbacks registered. -/
def engAAPL : Engine :=
  { Engine.fresh with
      initialized := true
      order_books := [("AAPL", bookAAPL)]
      fill_cb_registered := true
      status_cb_registered := true }

/-- A valid market BUY order for 100 AAPL. -/
def reqMarket : COrderRequest :=
  ⟨"ORD1", "AAPL", OrderType.market, OrderSide.buy, 100, 0, 0, TimeInForce.ioc⟩

/-- The order constructed from `reqMarket`. -/
def ordMarket : Order := Order.ofRequest reqMarket

/-- A valid limit BUY order for 10 AAPL at 200.0 (aggressive). -/
def reqLimit : COrderRequest :=
  ⟨"ORD2", "AAPL", OrderType.limit, OrderSide.buy, 10, 200, 0, TimeInForce.gtc⟩

/-- The order constructed from `reqLimit`. -/
def ordLimit : Order := Order.ofRequest reqLimit

/-- A valid stop BUY order for 10 AAPL with stop 10.0 (triggered, since the
mid price is far above). -/
def reqStop : COrderRequest :=
  ⟨"ORD3", "AAPL", OrderType.stop, OrderSide.buy, 10, 0, 10, TimeInForce.gtc⟩

/-- The order constructed from `reqStop`. -/
def ordStop : Order := Order.ofRequest reqStop

/-- C3 counterexample book: ask levels 0 and 2 are valid (price 100, size 5),
level 1 is invalid, so the market-order walk stops after level 0. -/
def gapBook : OrderBook :=
  ((OrderBook.empty "X").update_ask 100 5 0).update_ask 100 5 2

/-- C7 fixture: an engine holding one active (SUBMITTED) order under "ORD1",
status callback registered. -/
def engWithActive : Engine :=
  { Engine.fresh with
      active_orders := [("ORD1", { ordMarket with status := OrderStatus.submitted })]
      status_cb_registered := true }

/-- C8 witness fixture: three recorded orders. -/
def eventsC8 : List (Int × Bool) := [(5, true), (7, false), (9, true)]

/-- C9 fixture: the engine right after a first successful initialize. -/
def engInit : Engine := Prod.fst ( Engine.initialize Engine.fresh)

/-- C9 fixture: the initialized engine after the feed wrote a bid of 150.0
size 1000 into the AAPL book. -/
def engInitFed : Engine := engInit.update_book_bid "AAPL" 15000000 1000 0

/-- C9 fixture: the fed engine after a second initialize. -/
def engReinit : Engine := Prod.fst ( Engine.initialize engInitFed)

/-- The immediate-fill condition of `execute_limit_order`: the limit price
crosses the opposing best price and the book has sufficient liquidity. -/
def limitFillable (book : OrderBook) (o : Order) : Bool :=
  (match o.side with
   | OrderSide.buy => decide (book.get_best_ask ≤ o.price_ticks)
   | OrderSide.sell => decide (o.price_ticks ≤ book.get_best_bid))
  && book.has_sufficient_liquidity o.side o.quantity o.price_ticks

/-- The trigger condition of `execute_stop_order`: (BUY and mid >= stop) or
(SELL and mid <= stop). -/
def stopTriggered (book : OrderBook) (o : Order) : Bool :=
  match o.side with
  | OrderSide.buy => decide (o.stop_price_ticks ≤ book.get_mid_price)
  | OrderSide.sell => decide (book.get_mid_price ≤ o.stop_price_ticks)

/-- Invariant tying a `Metrics` object to the stream of latencies recorded so
far: the total counts the stream, successes and failures partition the total,
and the sample buffer is the newest `min(n, 10000)` samples of the stream. -/
def MetricsInv (m : Metrics) (stream : List Int) : Prop :=
  m.total_orders_processed = stream.length ∧
  m.successful_executions + m.failed_executions = m.total_orders_processed ∧
  m.latency_samples.length = min stream.length LATENCY_SAMPLE_CAP ∧
  m.latency_samples <:+ stream

/-!
Helper lemmas.
-/

theorem truncRat_intCast (n : Int) : truncRat (n : Rat) = n := by
  simp [truncRat, Rat.num_intCast, Rat.den_intCast]

theorem alookup_aset_self {α : Type} (m : List (String × α)) (k : String) (v : α) :
    alookup k (aset m k v) = some v := by
  simp [alookup, aset]

theorem alookup_aerase_self {α : Type} (m : List (String × α)) (k : String) :
    alookup k (aerase m k) = none := by
  induction m with
  | nil => rfl
  | cons p rest ih =>
    simp only [aerase, List.filter_cons] at *
    by_cases h : p.1 = k
    · simpa [h] using ih
    · simpa [alookup, h] using ih

theorem foldl_add_fill_fills (fs : List (Int × Rat)) (o : Order) :
    (fs.foldl (fun acc f => acc.add_fill f.1 f.2) o).fills = o.fills ++ fs := by
  induction fs generalizing o with
  | nil => simp
  | cons f rest ih =>
    simp only [List.foldl_cons]
    rw [ih]
    simp [Order.add_fill]

theorem validate_eq_false_iff (o : Order) :
    o.validate = false ↔
      (o.order_id.isEmpty = true ∨ o.symbol.isEmpty = true ∨ o.quantity ≤ 0 ∨
        (o.type = OrderType.limit ∧ o.price_ticks ≤ 0) ∨
        (o.type = OrderType.stop ∧ o.stop_price_ticks ≤ 0)) := by
  unfold Order.validate
  split_ifs with h1 h2 h3 h4 <;> simp_all [Bool.or_eq_true] <;> tauto

theorem validate_quantity_pos (o : Order) (h : o.validate = true) : 0 < o.quantity := by
  by_contra hq
  have hle : o.quantity ≤ 0 := le_of_not_lt hq
  unfold Order.validate at h
  split_ifs at h <;> simp_all

theorem is_valid_size_pos (l : OrderBookLevel) (h : l.is_valid = true) : 0 < l.size := by
  simp [OrderBookLevel.is_valid] at h
  exact h.2

theorem add_fill_full (o : Order) (p : Int) (hq : 0 < o.quantity)
    (hf : o.filled_quantity = 0) (ha : o.average_fill_price_ticks = 0) :
    o.add_fill p o.quantity =
      { o with fills := o.fills ++ [(p, o.quantity)]
               filled_quantity := o.quantity
               average_fill_price_ticks := p
               status := OrderStatus.filled } := by
  unfold Order.add_fill
  have hq0 : o.quantity ≠ 0 := ne_of_gt hq
  simp [hf, ha, hq0, mul_div_cancel_right₀, truncRat_intCast]

theorem stdMin_eq_min (a b : Rat) : (if b < a then b else a) = min a b := by
  split_ifs with h
  · exact (min_eq_right (le_of_lt h)).symm
  · exact (min_eq_left (le_of_not_lt h)).symm

theorem fillsWalk_cons_valid (l : OrderBookLevel) (rest : List OrderBookLevel) (q : Rat)
    (hv : l.is_valid = true) (hq : ¬ q ≤ 0) :
    fillsWalk (l :: rest) q
      = (l.price_ticks, min q l.size) :: fillsWalk rest (q - min q l.size) := by
  simp [fillsWalk, hv, hq, stdMin_eq_min]

theorem fillsWalk_nonpos (levels : List OrderBookLevel) (r : Rat) (h : r ≤ 0) :
    fillsWalk levels r = [] := by
  cases levels with
  | nil => rfl
  | cons l rest => simp [fillsWalk, h]

theorem levelSizeSum_validRun_nonneg (levels : List OrderBookLevel) :
    0 ≤ levelSizeSum (validRunLevels levels) := by
  unfold levelSizeSum validRunLevels
  apply List.sum_nonneg
  intro x hx
  simp only [List.mem_map] at hx
  obtain ⟨l, hl, rfl⟩ := hx
  exact le_of_lt (is_valid_size_pos l (List.mem_takeWhile_imp hl))

theorem fillSizeSum_nil : fillSizeSum [] = 0 := rfl

theorem fillSizeSum_cons (f : Int × Rat) (fs : List (Int × Rat)) :
    fillSizeSum (f :: fs) = f.2 + fillSizeSum fs := by
  simp [fillSizeSum]

theorem levelSizeSum_nil : levelSizeSum [] = 0 := rfl

theorem levelSizeSum_cons (l : OrderBookLevel) (ls : List OrderBookLevel) :
    levelSizeSum (l :: ls) = l.size + levelSizeSum ls := by
  simp [levelSizeSum]

theorem fillsWalk_sum (levels : List OrderBookLevel) (q : Rat) (hq : 0 < q) :
    fillSizeSum (fillsWalk levels q) = min q (levelSizeSum (validRunLevels levels)) := by
  induction levels generalizing q with
  | nil =>
    rw [show fillsWalk [] q = [] from rfl, show validRunLevels [] = [] from rfl,
      fillSizeSum_nil, levelSizeSum_nil, min_eq_right (le_of_lt hq)]
  | cons l rest ih =>
    by_cases hv : l.is_valid
    · have hnle : ¬ q ≤ 0 := not_le.mpr hq
      have hstep := fillsWalk_cons_valid l rest q hv hnle
      have hrun : validRunLevels (l :: rest) = l :: validRunLevels rest :=
        List.takeWhile_cons_of_pos hv
      rw [hstep, hrun, fillSizeSum_cons, levelSizeSum_cons]
      by_cases hle : q ≤ l.size
      · rw [min_eq_left hle, fillsWalk_nonpos rest (q - q) (by simp), fillSizeSum_nil]
        have h0 := levelSizeSum_validRun_nonneg rest
        rw [min_eq_left (by linarith : q ≤ l.size + levelSizeSum (validRunLevels rest))]
        ring
      · have hlt : l.size < q := lt_of_not_le hle
        rw [min_eq_right (le_of_lt hlt), ih (q - l.size) (by linarith)]
        rcases le_total (levelSizeSum (validRunLevels rest)) (q - l.size) with hc | hc
        · rw [min_eq_right hc,
            min_eq_right (by linarith : l.size + levelSizeSum (validRunLevels rest) ≤ q)]
        · rw [min_eq_left hc,
            min_eq_left (by linarith : q ≤ l.size + levelSizeSum (validRunLevels rest))]
          ring
    · have hstep : fillsWalk (l :: rest) q = [] := by simp [fillsWalk, hv]
      have hrun : validRunLevels (l :: rest) = [] :=
        List.takeWhile_cons_of_neg (by simpa using hv)
      rw [hstep, hrun, fillSizeSum_nil, levelSizeSum_nil, min_eq_right (le_of_lt hq)]

theorem fillsWalk_forall2 (levels : List OrderBookLevel) (q : Rat) :
    List.Forall₂ (fun (f : Int × Rat) (l : OrderBookLevel) => f.1 = l.price_ticks ∧ f.2 ≤ l.size)
      (fillsWalk levels q) ((validRunLevels levels).take (fillsWalk levels q).length) := by
  induction levels generalizing q with
  | nil => simp [fillsWalk]
  | cons l rest ih =>
    by_cases hv : l.is_valid
    · by_cases hq : q ≤ 0
      · rw [fillsWalk_nonpos _ _ hq]
        simp
      · have hstep := fillsWalk_cons_valid l rest q hv hq
        have hrun : validRunLevels (l :: rest) = l :: validRunLevels rest :=
          List.takeWhile_cons_of_pos hv
        rw [hstep, hrun]
        simp only [List.length_cons, List.take_succ_cons]
        exact List.Forall₂.cons ⟨rfl, min_le_right _ _⟩ (ih _)
    · rw [show fillsWalk (l :: rest) q = [] from by simp [fillsWalk, hv]]
      simp

theorem levelSizeSum_acceptedRun_nonneg (side : OrderSide) (limit : Int)
    (levels : List OrderBookLevel) :
    0 ≤ levelSizeSum (acceptedRunLevels side limit levels) := by
  unfold levelSizeSum acceptedRunLevels
  apply List.sum_nonneg
  intro x hx
  simp only [List.mem_map] at hx
  obtain ⟨l, hl, rfl⟩ := hx
  have h := List.mem_takeWhile_imp hl
  simp only [Bool.and_eq_true] at h
  exact le_of_lt (is_valid_size_pos l h.1)

theorem hslWalk_iff (side : OrderSide) (limit : Int) (q : Rat)
    (levels : List OrderBookLevel) (a : Rat) (ha : a < q) :
    (hslWalk side q limit levels a = true ↔
      q ≤ a + levelSizeSum (acceptedRunLevels side limit levels)) := by
  induction levels generalizing a with
  | nil =>
    rw [show acceptedRunLevels side limit [] = [] from rfl, levelSizeSum_nil]
    simp only [hslWalk, Bool.false_eq_true, false_iff, not_le]
    linarith
  | cons l rest ih =>
    by_cases hv : l.is_valid
    · by_cases hacc : levelAcceptable side limit l = true
      · have hrun : acceptedRunLevels side limit (l :: rest)
            = l :: acceptedRunLevels side limit rest :=
          List.takeWhile_cons_of_pos (by simp [hv, hacc])
        rw [hrun, levelSizeSum_cons]
        by_cases hge : q ≤ a + l.size
        · have hstep : hslWalk side q limit (l :: rest) a = true := by
            simp [hslWalk, hv, hacc, hge]
          rw [hstep]
          have h0 := levelSizeSum_acceptedRun_nonneg side limit rest
          constructor
          · intro _
            linarith
          · intro _
            rfl
        · have hstep : hslWalk side q limit (l :: rest) a
              = hslWalk side q limit rest (a + l.size) := by
            simp [hslWalk, hv, hacc, hge]
          rw [hstep, ih (a + l.size) (lt_of_not_le hge)]
          constructor <;> (intro h; linarith)
      · have hstep : hslWalk side q limit (l :: rest) a = false := by
          simp [hslWalk, hv, hacc]
        have hrun : acceptedRunLevels side limit (l :: rest) = [] :=
          List.takeWhile_cons_of_neg (by simp [hacc])
        rw [hstep, hrun, levelSizeSum_nil]
        simp only [Bool.false_eq_true, false_iff, not_le]
        linarith
    · have hstep : hslWalk side q limit (l :: rest) a = false := by
        simp [hslWalk, hv]
      have hrun : acceptedRunLevels side limit (l :: rest) = [] :=
        List.takeWhile_cons_of_neg (by simp [hv])
      rw [hstep, hrun, levelSizeSum_nil]
      simp only [Bool.false_eq_true, false_iff, not_le]
      linarith

theorem record_total (m : Metrics) (lat : Int) (b : Bool) :
    (m.record_order_processed lat b).total_orders_processed = m.total_orders_processed + 1 := rfl

theorem record_succ (m : Metrics) (lat : Int) (b : Bool) :
    (m.record_order_processed lat b).successful_executions
      = if b then m.successful_executions + 1 else m.successful_executions := rfl

theorem record_failed (m : Metrics) (lat : Int) (b : Bool) :
    (m.record_order_processed lat b).failed_executions
      = if b then m.failed_executions else m.failed_executions + 1 := rfl

theorem record_samples (m : Metrics) (lat : Int) (b : Bool) :
    (m.record_order_processed lat b).latency_samples
      = if LATENCY_SAMPLE_CAP < (m.latency_samples ++ [lat]).length then
          (m.latency_samples ++ [lat]).drop ((m.latency_samples ++ [lat]).length - LATENCY_SAMPLE_CAP)
        else m.latency_samples ++ [lat] := rfl

theorem metricsInv_step (m : Metrics) (s : List Int) (lat : Int) (b : Bool)
    (h : MetricsInv m s) :
    MetricsInv (m.record_order_processed lat b) (s ++ [lat]) := by
  obtain ⟨h1, h2, h3, h4⟩ := h
  have hsuf : m.latency_samples ++ [lat] <:+ s ++ [lat] := by
    obtain ⟨t, ht⟩ := h4
    exact ⟨t, by rw [← List.append_assoc, ht]⟩
  refine ⟨?_, ?_, ?_, ?_⟩
  · rw [record_total, h1]
    simp
  · rw [record_total, record_succ, record_failed]
    cases b <;> simp <;> omega
  · rw [record_samples]
    by_cases hc : LATENCY_SAMPLE_CAP < (m.latency_samples ++ [lat]).length
    · rw [if_pos hc]
      simp only [List.length_drop, List.length_append, List.length_singleton] at *
      omega
    · rw [if_neg hc]
      simp only [List.length_append, List.length_singleton] at *
      omega
  · rw [record_samples]
    by_cases hc : LATENCY_SAMPLE_CAP < (m.latency_samples ++ [lat]).length
    · rw [if_pos hc]
      exact (List.drop_suffix _ _).trans hsuf
    · rw [if_neg hc]
      exact hsuf

theorem metricsInv_foldl (events : List (Int × Bool)) (m0 : Metrics) (s0 : List Int)
    (h : MetricsInv m0 s0) :
    MetricsInv (events.foldl (fun m ev => m.record_order_processed ev.1 ev.2) m0)
      (s0 ++ events.map Prod.fst) := by
  induction events generalizing m0 s0 with
  | nil => simpa using h
  | cons ev rest ih =>
    have hstep := metricsInv_step m0 s0 ev.1 ev.2 h
    have hrest := ih (m0.record_order_processed ev.1 ev.2) (s0 ++ [ev.1]) hstep
    simpa [List.append_assoc] using hrest

theorem applyOrders_inv (events : List (Int × Bool)) :
    MetricsInv (applyOrders events) (events.map Prod.fst) := by
  have h0 : MetricsInv Metrics.fresh [] := by
    refine ⟨rfl, rfl, by simp [Metrics.fresh], ⟨[], rfl⟩⟩
  simpa using metricsInv_foldl events Metrics.fresh [] h0

theorem p99Index_lt (n : Nat) (h : 0 < n) : p99Index n < n := by
  unfold p99Index
  omega

theorem get_metrics_p99_nonempty (m : Metrics) (h : m.latency_samples ≠ []) :
    (m.get_metrics).p99_latency_micros
      = (m.latency_samples.mergeSort (fun a b => decide (a ≤ b))).getD
          (p99Index m.latency_samples.length) 0 := by
  have hne : m.latency_samples.isEmpty = false := by
    simpa [List.isEmpty_iff] using h
  have hlen : (m.latency_samples.mergeSort (fun a b => decide (a ≤ b))).length
      = m.latency_samples.length := (List.mergeSort_perm _ _).length_eq
  have hpos : 0 < m.latency_samples.length := List.length_pos.mpr h
  have hidx : p99Index m.latency_samples.length
      < (m.latency_samples.mergeSort (fun a b => decide (a ≤ b))).length := by
    rw [hlen]
    exact p99Index_lt _ hpos
  unfold Metrics.get_metrics
  simp only [hne, Bool.false_eq_true, if_false, if_pos hidx]

theorem p99_mem (m : Metrics) (h : m.latency_samples ≠ []) :
    (m.get_metrics).p99_latency_micros ∈ m.latency_samples := by
  have hlen : (m.latency_samples.mergeSort (fun a b => decide (a ≤ b))).length
      = m.latency_samples.length := (List.mergeSort_perm _ _).length_eq
  have hpos : 0 < m.latency_samples.length := List.length_pos.mpr h
  have hidx : p99Index m.latency_samples.length
      < (m.latency_samples.mergeSort (fun a b => decide (a ≤ b))).length := by
    rw [hlen]
    exact p99Index_lt _ hpos
  rw [get_metrics_p99_nonempty m h, List.getD_eq_getElem _ _ hidx]
  exact ((List.mergeSort_perm m.latency_samples _).mem_iff).mp (List.getElem_mem _)

theorem get_metrics_p99_empty (m : Metrics) (h : m.latency_samples = []) :
    (m.get_metrics).p99_latency_micros = 0 := by
  unfold Metrics.get_metrics
  simp [h]

theorem get_metrics_avg (m : Metrics) :
    (m.get_metrics).average_latency_micros
      = if 0 < m.total_orders_processed then
          (m.total_latency_micros : Rat) / (m.total_orders_processed : Rat)
        else 0 := rfl

@[simp] theorem ofRequest_order_id (req : COrderRequest) :
    (Order.ofRequest req).order_id = req.order_id := rfl

@[simp] theorem ofRequest_symbol (req : COrderRequest) :
    (Order.ofRequest req).symbol = req.symbol := rfl

@[simp] theorem ofRequest_type (req : COrderRequest) :
    (Order.ofRequest req).type = req.order_type := rfl

@[simp] theorem ofRequest_side (req : COrderRequest) :
    (Order.ofRequest req).side = req.side := rfl

@[simp] theorem ofRequest_quantity (req : COrderRequest) :
    (Order.ofRequest req).quantity = req.quantity := rfl

@[simp] theorem ofRequest_price_ticks (req : COrderRequest) :
    (Order.ofRequest req).price_ticks = priceTicksOfReal req.price := rfl

@[simp] theorem ofRequest_stop_price_ticks (req : COrderRequest) :
    (Order.ofRequest req).stop_price_ticks = priceTicksOfReal req.stop_price := rfl

@[simp] theorem ofRequest_status (req : COrderRequest) :
    (Order.ofRequest req).status = OrderStatus.pending := rfl

@[simp] theorem ofRequest_filled_quantity (req : COrderRequest) :
    (Order.ofRequest req).filled_quantity = 0 := rfl

@[simp] theorem ofRequest_average (req : COrderRequest) :
    (Order.ofRequest req).average_fill_price_ticks = 0 := rfl

@[simp] theorem ofRequest_fills (req : COrderRequest) :
    (Order.ofRequest req).fills = [] := rfl

theorem execute_limit_eq (e : Engine) (o : Order) (book : OrderBook)
    (hbook : alookup o.symbol e.order_books = some book) :
    e.execute_limit_order o =
      if limitFillable book o then
        (ExecutionResult.success, o.add_fill o.price_ticks o.quantity)
      else (ExecutionResult.success, { o with status := OrderStatus.submitted }) := by
  unfold Engine.execute_limit_order limitFillable
  rw [hbook]
  cases o.side <;> rfl

theorem execute_stop_eq (e : Engine) (o : Order) (book : OrderBook)
    (hbook : alookup o.symbol e.order_books = some book) :
    e.execute_stop_order o =
      if stopTriggered book o then
        (ExecutionResult.success, o.add_fill book.get_mid_price o.quantity)
      else (ExecutionResult.success, { o with status := OrderStatus.submitted }) := by
  unfold Engine.execute_stop_order stopTriggered
  rw [hbook]

/-- Claim C1 (corrected): `submit_order` returns `INVALID_ORDER` at the
validation stage exactly when `validate()` fails, which happens exactly when
the id or symbol is empty, the quantity is nonpositive, the type is LIMIT with
limit price ticks <= 0, or the type is STOP with stop price ticks <= 0; on
that failure the engine state is unchanged and the response carries result
`INVALID_ORDER` but status `SUBMITTED` (the value the response was initialised
with) — not `REJECTED` as the claim states. -/
theorem C1_validation_reject (e : Engine) (req : COrderRequest) (lat : Int) :
    ((Order.ofRequest req).validate = false ↔
      (req.order_id.isEmpty = true ∨ req.symbol.isEmpty = true ∨ req.quantity ≤ 0 ∨
        (req.order_type = OrderType.limit ∧ priceTicksOfReal req.price ≤ 0) ∨
        (req.order_type = OrderType.stop ∧ priceTicksOfReal req.stop_price ≤ 0))) ∧
    ((Order.ofRequest req).validate = false →
      e.submit_order req lat
        = (e, ⟨req.order_id, ExecutionResult.invalidOrder, OrderStatus.submitted,
               "Invalid order parameters", 0, 0⟩, [])) := by
  constructor
  · simpa using validate_eq_false_iff (Order.ofRequest req)
  · intro h
    simp [Engine.submit_order, h]

/-- Claim C1 counterexample: for the request with an empty order id,
`submit_order` returns `INVALID_ORDER` but the response status is `SUBMITTED`,
not `REJECTED` as the claim states. -/
theorem C1_counterexample :
    (Engine.fresh.submit_order reqEmptyId 0).2.1.result = ExecutionResult.invalidOrder ∧
    (Engine.fresh.submit_order reqEmptyId 0).2.1.status = OrderStatus.submitted ∧
    (Engine.fresh.submit_order reqEmptyId 0).2.1.status ≠ OrderStatus.rejected := by
  decide

/-- Witness for C1: the amended theorem applied to the empty-id request. -/
theorem C1_witness :
    (Order.ofRequest reqEmptyId).validate = false ∧
    Engine.fresh.submit_order reqEmptyId 0
      = (Engine.fresh, ⟨"", ExecutionResult.invalidOrder, OrderStatus.submitted,
         "Invalid order parameters", 0, 0⟩, []) :=
  ⟨by decide, (C1_validation_reject Engine.fresh reqEmptyId 0).2 (by decide)⟩

/-- Claim C2: for every valid market order, `execute_market_order` returns
`INVALID_ORDER` when the symbol has no book; `INSUFFICIENT_LIQUIDITY` with the
order unchanged (no fill recorded) when the book's level walk yields no fills;
otherwise `SUCCESS`, with every emitted (price, size) pair appended to the
order's fill history and one fill event with fee = 0.001 * size emitted per
fill to the registered fill callback. -/
theorem C2_market_execution (e : Engine) (o : Order)
    (hval : o.validate = true) (hty : o.type = OrderType.market)
    (hcb : e.fill_cb_registered = true) :
    (alookup o.symbol e.order_books = none →
      e.execute_market_order o = (ExecutionResult.invalidOrder, o, [])) ∧
    (∀ book, alookup o.symbol e.order_books = some book →
      (book.get_fills_for_market_order o.side o.quantity = [] →
        e.execute_market_order o = (ExecutionResult.insufficientLiquidity, o, [])) ∧
      (book.get_fills_for_market_order o.side o.quantity ≠ [] →
        (e.execute_market_order o).1 = ExecutionResult.success ∧
        (e.execute_market_order o).2.1.fills
          = o.fills ++ book.get_fills_for_market_order o.side o.quantity ∧
        (e.execute_market_order o).2.2
          = (book.get_fills_for_market_order o.side o.quantity).map
              (fun f => ⟨o.order_id, f.1, f.2, feeOfQuantity f.2⟩))) := by
  refine ⟨?_, ?_⟩
  · intro hnone
    simp [Engine.execute_market_order, hnone]
  · intro book hsome
    refine ⟨?_, ?_⟩
    · intro hemp
      simp [Engine.execute_market_order, hsome, hemp]
    · intro hne
      have hempf : (book.get_fills_for_market_order o.side o.quantity).isEmpty = false := by
        simpa [List.isEmpty_iff] using hne
      refine ⟨?_, ?_, ?_⟩ <;>
        simp [Engine.execute_market_order, hsome, hempf, hcb, foldl_add_fill_fills]

/-- Witness for C2: the market BUY 100 AAPL order against the seeded AAPL book
fills with result `SUCCESS`. -/
theorem C2_witness :
    ordMarket.validate = true ∧
    alookup ordMarket.symbol engAAPL.order_books = some bookAAPL ∧
    bookAAPL.get_fills_for_market_order ordMarket.side ordMarket.quantity ≠ [] ∧
    (engAAPL.execute_market_order ordMarket).1 = ExecutionResult.success := by
  have h := C2_market_execution engAAPL ordMarket (by decide) (by decide) rfl
  exact ⟨by decide, by decide, by decide, ((h.2 bookAAPL (by decide)).2 (by decide)).1⟩

/-- Claim C3 counterexample: on a book whose ask side is valid at levels 0 and
2 (price 100, size 5 each) but invalid at level 1, a BUY market order for 8
receives fills summing to 5, while min(8, sum of ALL valid ask sizes) = 8: the
walk stops at the first invalid level, so the claimed sum equation fails. -/
theorem C3_counterexample :
    gapBook.get_fills_for_market_order OrderSide.buy 8 = [(100, 5)] ∧
    fillSizeSum (gapBook.get_fills_for_market_order OrderSide.buy 8) ≠
      min (8 : Rat) (levelSizeSum (validLevels (gapBook.opposing OrderSide.buy))) := by
  have h1 : gapBook.get_fills_for_market_order OrderSide.buy 8 = [(100, 5)] := by decide
  have h2 : levelSizeSum (validLevels (gapBook.opposing OrderSide.buy)) = 10 := by decide
  refine ⟨h1, ?_⟩
  rw [h1, h2, min_eq_left (by norm_num : (8 : Rat) ≤ 10)]
  decide

/-- Claim C3 (corrected): for every side and quantity q > 0, the emitted
(price, taken_size) pairs follow the opposing side in level order, each taking
at most that level's size, and the emitted sizes sum to min(q, sum of the
sizes of the INITIAL RUN of valid opposing-side levels) — the walk stops at
the first invalid level, so levels after it are not counted. -/
theorem C3_market_fill_sum (b : OrderBook) (side : OrderSide) (q : Rat) (h : 0 < q) :
    List.Forall₂
      (fun (f : Int × Rat) (l : OrderBookLevel) => f.1 = l.price_ticks ∧ f.2 ≤ l.size)
      (b.get_fills_for_market_order side q)
      ((validRunLevels (b.opposing side)).take (b.get_fills_for_market_order side q).length) ∧
    fillSizeSum (b.get_fills_for_market_order side q)
      = min q (levelSizeSum (validRunLevels (b.opposing side))) :=
  ⟨fillsWalk_forall2 _ _, fillsWalk_sum _ _ h⟩

/-- Witness for C3: the amended sum equation evaluated on the gap book. -/
theorem C3_witness :
    (0 : Rat) < 8 ∧
    fillSizeSum (gapBook.get_fills_for_market_order OrderSide.buy 8)
      = min (8 : Rat) (levelSizeSum (validRunLevels (gapBook.opposing OrderSide.buy))) :=
  ⟨by norm_num, (C3_market_fill_sum gapBook OrderSide.buy 8 (by norm_num)).2⟩

/-- Claim C4 counterexample: with quantity 0 against an empty book, the
accumulated acceptable size (0) reaches the requested quantity (0), yet
`has_sufficient_liquidity` returns false — the claimed "if and only if" fails
for nonpositive quantities, because the comparison only runs after at least
one level was accumulated. -/
theorem C4_counterexample :
    (OrderBook.empty "ZZZZ").has_sufficient_liquidity OrderSide.buy 0 100 = false ∧
    (0 : Rat) ≤ levelSizeSum
      (acceptedRunLevels OrderSide.buy 100 ((OrderBook.empty "ZZZZ").opposing OrderSide.buy)) ∧
    ¬ ((OrderBook.empty "ZZZZ").has_sufficient_liquidity OrderSide.buy 0 100 = true ↔
        (0 : Rat) ≤ levelSizeSum
          (acceptedRunLevels OrderSide.buy 100
            ((OrderBook.empty "ZZZZ").opposing OrderSide.buy))) := by
  decide

/-- Claim C4 (corrected): for every quantity q > 0 (as supplied by every call
site, where quantities are validated positive), `has_sufficient_liquidity`
returns true if and only if the sizes accumulated over the initial run of
valid, price-acceptable opposing-side levels reach q. -/
theorem C4_liquidity_iff (b : OrderBook) (side : OrderSide) (q : Rat) (limit : Int)
    (h : 0 < q) :
    (b.has_sufficient_liquidity side q limit = true ↔
      q ≤ levelSizeSum (acceptedRunLevels side limit (b.opposing side))) := by
  have hw := hslWalk_iff side limit q (b.opposing side) 0 h
  simpa [OrderBook.has_sufficient_liquidity] using hw

/-- Witness for C4: the iff evaluated on the seeded AAPL book for a BUY of 100
at the best ask price. -/
theorem C4_witness :
    (0 : Rat) < 100 ∧
    (bookAAPL.has_sufficient_liquidity OrderSide.buy 100 15000000 = true ↔
      (100 : Rat) ≤ levelSizeSum
        (acceptedRunLevels OrderSide.buy 15000000 (bookAAPL.opposing OrderSide.buy))) :=
  ⟨by decide, C4_liquidity_iff bookAAPL OrderSide.buy 100 15000000 (by decide)⟩

/-- Claim C5: for every valid limit order on a known symbol (fresh from
submission: no prior fills), with ref = best_ask for BUY and ref = best_bid
for SELL: the order fills immediately iff ((BUY and limit >= ref) or (SELL
and limit <= ref)) and `has_sufficient_liquidity(side, qty, limit)` holds;
when it fills, exactly one fill at the limit price for the full quantity is
recorded (status FILLED, average fill price = limit price) and the result is
SUCCESS; otherwise the order is left SUBMITTED with zero filled quantity and
the result is still SUCCESS. -/
theorem C5_limit_execution (e : Engine) (o : Order) (book : OrderBook)
    (hval : o.validate = true) (hty : o.type = OrderType.limit)
    (hbook : alookup o.symbol e.order_books = some book)
    (hf : o.filled_quantity = 0) (ha : o.average_fill_price_ticks = 0)
    (hfl : o.fills = []) :
    (e.execute_limit_order o).1 = ExecutionResult.success ∧
    ((e.execute_limit_order o).2.fills ≠ [] ↔ limitFillable book o = true) ∧
    (limitFillable book o = true →
      (e.execute_limit_order o).2.fills = [(o.price_ticks, o.quantity)] ∧
      (e.execute_limit_order o).2.status = OrderStatus.filled ∧
      (e.execute_limit_order o).2.average_fill_price_ticks = o.price_ticks ∧
      (e.execute_limit_order o).2.filled_quantity = o.quantity) ∧
    (limitFillable book o = false →
      (e.execute_limit_order o).2.status = OrderStatus.submitted ∧
      (e.execute_limit_order o).2.filled_quantity = 0) := by
  have hq := validate_quantity_pos o hval
  rw [execute_limit_eq e o book hbook]
  by_cases hcan : limitFillable book o = true
  · rw [if_pos hcan, add_fill_full o o.price_ticks hq hf ha]
    simp [hcan, hfl]
  · rw [if_neg hcan]
    simp_all

/-- Witness for C5: BUY 10 AAPL limit @ 200 against the seeded book fills at
the limit price with status FILLED. -/
theorem C5_witness :
    ordLimit.validate = true ∧
    limitFillable bookAAPL ordLimit = true ∧
    (engAAPL.execute_limit_order ordLimit).2.status = OrderStatus.filled ∧
    (engAAPL.execute_limit_order ordLimit).2.average_fill_price_ticks
      = ordLimit.price_ticks := by
  have h := C5_limit_execution engAAPL ordLimit bookAAPL (by decide) (by decide)
    (by decide) rfl rfl rfl
  have hcan : limitFillable bookAAPL ordLimit = true := by decide
  obtain ⟨-, -, hpos, -⟩ := h
  obtain ⟨-, hst, havg, -⟩ := hpos hcan
  exact ⟨by decide, hcan, hst, havg⟩

/-- Claim C6: for every valid stop order on a known symbol (fresh from
submission), with p the book's mid price: the stop triggers iff (BUY and
p >= stop price) or (SELL and p <= stop price); when triggered, exactly one
fill at p for the full quantity is recorded and the result is SUCCESS;
otherwise the order is left SUBMITTED and unfilled, and the result is still
SUCCESS. -/
theorem C6_stop_execution (e : Engine) (o : Order) (book : OrderBook)
    (hval : o.validate = true) (hty : o.type = OrderType.stop)
    (hbook : alookup o.symbol e.order_books = some book)
    (hf : o.filled_quantity = 0) (ha : o.average_fill_price_ticks = 0)
    (hfl : o.fills = []) :
    (e.execute_stop_order o).1 = ExecutionResult.success ∧
    ((e.execute_stop_order o).2.fills ≠ [] ↔ stopTriggered book o = true) ∧
    (stopTriggered book o = true →
      (e.execute_stop_order o).2.fills = [(book.get_mid_price, o.quantity)] ∧
      (e.execute_stop_order o).2.status = OrderStatus.filled ∧
      (e.execute_stop_order o).2.filled_quantity = o.quantity) ∧
    (stopTriggered book o = false →
      (e.execute_stop_order o).2.status = OrderStatus.submitted ∧
      (e.execute_stop_order o).2.filled_quantity = 0) := by
  have hq := validate_quantity_pos o hval
  rw [execute_stop_eq e o book hbook]
  by_cases htr : stopTriggered book o = true
  · rw [if_pos htr, add_fill_full o book.get_mid_price hq hf ha]
    simp [htr, hfl]
  · rw [if_neg htr]
    simp_all

/-- Witness for C6: the BUY stop order with stop 10 triggers against the
seeded AAPL book (mid far above the stop) and fills at the mid price. -/
theorem C6_witness :
    ordStop.validate = true ∧
    stopTriggered bookAAPL ordStop = true ∧
    (engAAPL.execute_stop_order ordStop).2.fills
      = [(bookAAPL.get_mid_price, ordStop.quantity)] ∧
    (engAAPL.execute_stop_order ordStop).2.status = OrderStatus.filled := by
  have h := C6_stop_execution engAAPL ordStop bookAAPL (by decide) (by decide)
    (by decide) rfl rfl rfl
  have htr : stopTriggered bookAAPL ordStop = true := by decide
  obtain ⟨-, -, hpos, -⟩ := h
  obtain ⟨hfills, hst, -⟩ := hpos htr
  exact ⟨by decide, htr, hfills, hst⟩

/-- Claim C7: `cancel_order` returns ORDER_NOT_FOUND when the id is absent
from the active-orders map; INVALID_ORDER with no state change when the order
is present but not active; otherwise it removes the order from the active
map, fires the registered status callback with message "Order cancelled" and
status CANCELLED, and returns SUCCESS — after which a second cancel of the
same id returns ORDER_NOT_FOUND. -/
theorem C7_cancel_order (e : Engine) (id : String) (hcb : e.status_cb_registered = true) :
    (alookup id e.active_orders = none →
      e.cancel_order id = (e, ExecutionResult.orderNotFound, none)) ∧
    (∀ o, alookup id e.active_orders = some o →
      (o.is_active = false →
        e.cancel_order id = (e, ExecutionResult.invalidOrder, none)) ∧
      (o.is_active = true →
        (e.cancel_order id).2.1 = ExecutionResult.success ∧
        (e.cancel_order id).1.active_orders = aerase e.active_orders id ∧
        (e.cancel_order id).2.2
          = some ⟨id, OrderStatus.cancelled, "Order cancelled"⟩ ∧
        ((e.cancel_order id).1.cancel_order id).2.1
          = ExecutionResult.orderNotFound)) := by
  refine ⟨?_, ?_⟩
  · intro h
    simp [Engine.cancel_order, h]
  · intro o h
    refine ⟨?_, ?_⟩
    · intro hact
      simp [Engine.cancel_order, h, hact]
    · intro hact
      have hexec : e.cancel_order id
          = ({ e with active_orders := aerase e.active_orders id },
             ExecutionResult.success,
             some ⟨id, OrderStatus.cancelled, "Order cancelled"⟩) := by
        simp [Engine.cancel_order, h, hact, hcb]
      rw [hexec]
      refine ⟨rfl, rfl, rfl, ?_⟩
      simp [Engine.cancel_order, alookup_aerase_self]

/-- Witness for C7: cancelling the active order "ORD1" succeeds, and
cancelling the same id again returns ORDER_NOT_FOUND. -/
theorem C7_witness :
    (engWithActive.cancel_order "ORD1").2.1 = ExecutionResult.success ∧
    ((engWithActive.cancel_order "ORD1").1.cancel_order "ORD1").2.1
      = ExecutionResult.orderNotFound := by
  have h := C7_cancel_order engWithActive "ORD1" rfl
  have hsome : alookup "ORD1" engWithActive.active_orders
      = some { ordMarket with status := OrderStatus.submitted } := by decide
  obtain ⟨-, h2⟩ := h
  obtain ⟨-, h3⟩ := h2 _ hsome
  obtain ⟨hok, -, -, hnot⟩ := h3 (by decide)
  exact ⟨hok, hnot⟩

/-- Claim C8: in every metrics state reached by recording orders, each
`record_order_processed` increments the total and exactly one of
successful/failed; successful + failed = total; the latency sample buffer
never holds more than 10000 entries and retains the newest (it is a suffix of
the recorded latency stream of length min(n, 10000)); the snapshot's P99
equals sorted_samples[floor(0.99 n)] over the current buffer and is therefore
an element of the samples (0 if the buffer is empty); and the average latency
equals latency_sum / total_processed (0 if none). -/
theorem C8_metrics_snapshot (events : List (Int × Bool)) (m : Metrics)
    (lat : Int) (b : Bool) (hm : m = applyOrders events) :
    ((m.record_order_processed lat b).total_orders_processed
      = m.total_orders_processed + 1) ∧
    (b = true →
      (m.record_order_processed lat b).successful_executions
          = m.successful_executions + 1 ∧
      (m.record_order_processed lat b).failed_executions = m.failed_executions) ∧
    (b = false →
      (m.record_order_processed lat b).successful_executions
          = m.successful_executions ∧
      (m.record_order_processed lat b).failed_executions
          = m.failed_executions + 1) ∧
    m.successful_executions + m.failed_executions = m.total_orders_processed ∧
    m.latency_samples.length ≤ LATENCY_SAMPLE_CAP ∧
    m.latency_samples <:+ events.map Prod.fst ∧
    m.latency_samples.length = min (events.map Prod.fst).length LATENCY_SAMPLE_CAP ∧
    (m.latency_samples ≠ [] →
      (m.get_metrics).p99_latency_micros
        = (m.latency_samples.mergeSort (fun a b => decide (a ≤ b))).getD
            (p99Index m.latency_samples.length) 0 ∧
      (m.get_metrics).p99_latency_micros ∈ m.latency_samples) ∧
    (m.latency_samples = [] → (m.get_metrics).p99_latency_micros = 0) ∧
    (0 < m.total_orders_processed →
      (m.get_metrics).average_latency_micros
        = (m.total_latency_micros : Rat) / (m.total_orders_processed : Rat)) ∧
    (m.total_orders_processed = 0 → (m.get_metrics).average_latency_micros = 0) := by
  subst hm
  have hinv := applyOrders_inv events
  unfold MetricsInv at hinv
  obtain ⟨h1, h2, h3, h4⟩ := hinv
  refine ⟨record_total _ _ _, ?_, ?_, h2, ?_, h4, h3, ?_, ?_, ?_, ?_⟩
  · intro hb
    subst hb
    exact ⟨rfl, rfl⟩
  · intro hb
    subst hb
    exact ⟨rfl, rfl⟩
  · rw [h3]
    exact min_le_right _ _
  · intro hne
    exact ⟨get_metrics_p99_nonempty _ hne, p99_mem _ hne⟩
  · exact get_metrics_p99_empty _
  · intro hpos
    rw [get_metrics_avg, if_pos hpos]
  · intro h0
    rw [get_metrics_avg, if_neg (by omega)]

/-- Witness for C8: after recording latencies 5, 7, 9 (success, failure,
success), successes + failures = total, the P99 is one of the samples, and
the average latency is 21/3 = 7. -/
theorem C8_witness :
    (applyOrders eventsC8).successful_executions
        + (applyOrders eventsC8).failed_executions
      = (applyOrders eventsC8).total_orders_processed ∧
    ((applyOrders eventsC8).get_metrics).p99_latency_micros
      ∈ (applyOrders eventsC8).latency_samples ∧
    ((applyOrders eventsC8).get_metrics).average_latency_micros = 7 := by
  have h := C8_metrics_snapshot eventsC8 (applyOrders eventsC8) 3 true rfl
  obtain ⟨-, -, -, h4, -, -, -, h8, -, h10, -⟩ := h
  refine ⟨h4, (h8 (by decide)).2, ?_⟩
  rw [h10 (by decide)]
  decide

/-- Claim C9 counterexample: after a first initialize and a feed write of bid
150.0 into AAPL, a second initialize returns SUCCESS but REPLACES the seed
books with fresh empty ones: AAPL's best bid drops from 15000000 ticks back
to 0, so the seed books do not persist unchanged. -/
theorem C9_counterexample :
    Prod.snd ( Engine.initialize engInitFed) = ExecutionResult.success ∧
    (alookup "AAPL" engInitFed.order_books).map OrderBook.get_best_bid
      = some 15000000 ∧
    (alookup "AAPL" engReinit.order_books).map OrderBook.get_best_bid = some 0 ∧
    engReinit.order_books ≠ engInitFed.order_books := by
  decide

/-- Claim C9 (corrected): a second initialize after a successful one returns
SUCCESS but is not a no-op on the books: it recreates the five seed books
fresh (empty), leaving the active-orders map untouched; start when already
running returns SUCCESS and leaves the engine unchanged; stop returns SUCCESS
even when the engine is not running; and start without a prior initialize
fails with SYSTEM_ERROR. -/
theorem C9_lifecycle (e : Engine) :
    (e.initialized = true →
      Prod.snd ( Engine.initialize e) = ExecutionResult.success ∧
      (Prod.fst ( Engine.initialize e)).active_orders = e.active_orders ∧
      (Prod.fst ( Engine.initialize e)).order_books
        = seedSymbols.foldl (fun bs s => aset bs s (OrderBook.empty s)) e.order_books) ∧
    (e.initialized = true → e.running = true → e.start = (e, ExecutionResult.success)) ∧
    (e.stop).2 = ExecutionResult.success ∧
    (e.initialized = false → (e.start).2 = ExecutionResult.systemError) := by
  refine ⟨fun _ => ⟨rfl, rfl, rfl⟩, ?_, rfl, ?_⟩
  · intro h1 h2
    simp [Engine.start, h1, h2]
  · intro h
    simp [Engine.start, h]

/-- Witness for C9: the initialized engine accepts a second initialize with
SUCCESS, a started engine accepts start again with SUCCESS, stop succeeds on
the non-running fresh engine, and start on the fresh (uninitialized) engine
fails with SYSTEM_ERROR. -/
theorem C9_witness :
    engInit.initialized = true ∧
    Prod.snd ( Engine.initialize engInit) = ExecutionResult.success ∧
    (Prod.fst (engInit.start)).start
      = (Prod.fst (engInit.start), ExecutionResult.success) ∧
    (engInit.stop).2 = ExecutionResult.success ∧
    Engine.fresh.initialized = false ∧
    (Engine.fresh.start).2 = ExecutionResult.systemError := by
  have h := C9_lifecycle engInit
  have hs := C9_lifecycle (Prod.fst (engInit.start))
  have h0 := C9_lifecycle Engine.fresh
  exact ⟨by decide, (h.1 (by decide)).1, hs.2.1 (by decide) (by decide),
    h.2.2.1, by decide, h0.2.2.2 (by decide)⟩

/-- Claim C10: every order that passes validation and the risk check is
inserted into the active-orders map by `submit_order` and is never removed by
the execution path: after execution (of any type, including a complete fill)
the order is still in the map under its id with the status the response
reports, so when it finished FILLED a later `cancel_order` on its id returns
INVALID_ORDER (not ORDER_NOT_FOUND), and the metrics snapshot's active_orders
field counts the map including such terminal orders. -/
theorem C10_active_orders (e : Engine) (req : COrderRequest) (lat : Int)
    (hval : (Order.ofRequest req).validate = true)
    (hrisk : (e.enable_risk_checks
        && decide (e.max_position_size < req.quantity)) = false) :
    ∃ o2 : Order,
      alookup req.order_id (e.submit_order req lat).1.active_orders = some o2 ∧
      (e.submit_order req lat).2.1.status = o2.status ∧
      (o2.status = OrderStatus.filled →
        ((e.submit_order req lat).1.cancel_order req.order_id).2.1
          = ExecutionResult.invalidOrder) ∧
      (e.submit_order req lat).1.get_metrics.active_orders
        = (e.submit_order req lat).1.active_orders.length := by
  simp only [Engine.submit_order, hval, Bool.not_true, Bool.false_eq_true, if_false,
    hrisk, ofRequest_order_id, ofRequest_quantity, ofRequest_type]
  refine ⟨_, alookup_aset_self _ _ _, rfl, ?_, rfl⟩
  intro hfill
  simp [Engine.cancel_order, alookup_aset_self, Order.is_active, hfill]

/-- Witness for C10: the fully filled market order "ORD1" stays in the active
map, and cancelling it afterwards returns INVALID_ORDER. -/
theorem C10_witness :
    (Order.ofRequest reqMarket).validate = true ∧
    ((engAAPL.submit_order reqMarket 5).1.cancel_order reqMarket.order_id).2.1
      = ExecutionResult.invalidOrder := by
  obtain ⟨o2, h1, h2, h3, h4⟩ := C10_active_orders engAAPL reqMarket 5
    (by decide) (by decide)
  refine ⟨by decide, ?_⟩
  apply h3
  rw [← h2]
  decide
